import Mathlib

/-!
Verification development for the workflow engine repository
(template engine, expression engine, workflow validator, workflow executor).

JavaScript runtime values are shallowly embedded as the inductive type
JSValue; JS numbers are idealised as rationals (no NaN / negative zero /
rounding, which none of the verified properties depend on). Functions that
can throw in the source are embedded with Except; a try/catch block becomes
a match on the Except result. Recursive procedures whose termination is by
a decreasing amount of work are given an explicit fuel argument that is
always instantiated generously enough at the call sites appearing in this
file (keeping every definition structurally recursive so that concrete runs
evaluate inside the kernel).
-/

set_option maxRecDepth 4000
set_option maxHeartbeats 1000000

/-- Shallow embedding of a JavaScript runtime value. -/
inductive JSValue : Type where
  | undefined : JSValue
  | null : JSValue
  | bool : Bool → JSValue
  | num : ℚ → JSValue
  | str : String → JSValue
  | arr : List JSValue → JSValue
  | obj : List (String × JSValue) → JSValue

/-- JavaScript truthiness of a value. -/
def jsTruthy : JSValue → Bool
  | .undefined => false
  | .null => false
  | .bool b => b
  | .num q => q ≠ 0
  | .str s => s ≠ ""
  | .arr _ => true
  | .obj _ => true

/-- Whitespace test used by the String.trim model. -/
def isWsChar (c : Char) : Bool :=
  c = ' ' ∨ c = '\t' ∨ c = '\n' ∨ c = '\r'

/-- Model of the String.trim of JS: drop whitespace from both ends. -/
def jsTrim (s : String) : String :=
  (((s.data.dropWhile isWsChar).reverse.dropWhile isWsChar).reverse).asString

/-- Canonical decimal digit reading used for array index property names:
some value exactly when the string is a nonempty run of digits. -/
def digitsToNat (s : String) : Option Nat :=
  if s.data ≠ [] ∧ s.data.all Char.isDigit then
    some (s.data.foldl (fun acc c => acc * 10 + (c.toNat - '0'.toNat)) 0)
  else none

/-- First-match lookup of an own property of a JS object literal. -/
def objLookup (fields : List (String × JSValue)) (name : String) : JSValue :=
  match fields with
  | [] => .undefined
  | (k, v) :: rest => if k = name then v else objLookup rest name

/-- Property read current[name] for the values on which the template engine
performs it (after its typeof checks): JS objects return the own property or
undefined; JS arrays expose length and their elements under canonical
numeric keys. -/
def jsGetProp : JSValue → String → JSValue
  | .obj fields, name => objLookup fields name
  | .arr elems, name =>
      if name = "length" then .num elems.length
      else
        match digitsToNat name with
        | some i =>
            if (Nat.toDigits 10 i).asString = name then
              if h : i < elems.length then elems.get ⟨i, h⟩ else .undefined
            else .undefined
        | none => .undefined
  | _, _ => .undefined

/-- Index read current[i] on a JS array (out of range or negative gives
undefined). -/
def jsIndex (elems : List JSValue) (i : Int) : JSValue :=
  match i with
  | .ofNat n => if h : n < elems.length then elems.get ⟨n, h⟩ else .undefined
  | .negSucc _ => .undefined

/-- Assignment obj[key] = v on a JS object: overwrite the existing own
property or append a new one. -/
def objSet (fields : List (String × JSValue)) (name : String) (v : JSValue) :
    List (String × JSValue) :=
  match fields with
  | [] => [(name, v)]
  | (k, w) :: rest =>
      if k = name then (k, v) :: rest else (k, w) :: objSet rest name v

/-- Decimal digits of the fractional part of a rational (JS number
printing, restricted to decimally-terminating fractions; every numeric
literal handled in this development terminates well inside the fuel). -/
def fracDigits : Nat → Nat → Nat → String
  | 0, _, _ => ""
  | _ + 1, 0, _ => ""
  | fuel + 1, r, d =>
      let r10 := r * 10
      (Nat.toDigits 10 (r10 / d)).asString ++ fracDigits fuel (r10 % d) d

/-- Printing of a JS number (the String(value) conversion), idealised over
rationals: integers print without a point, terminating decimal fractions
print their digits. -/
def jsNumToString (q : ℚ) : String :=
  let sign := if q < 0 then "-" else ""
  let n := q.num.natAbs
  let d := q.den
  if d = 1 then sign ++ (Nat.toDigits 10 n).asString
  else sign ++ (Nat.toDigits 10 (n / d)).asString ++ "." ++ fracDigits 30 (n % d) d

/-- Node count of a JS value, used as recursion fuel for JSON.stringify. -/
def jsSize : JSValue → Nat
  | .undefined => 1
  | .null => 1
  | .bool _ => 1
  | .num _ => 1
  | .str _ => 1
  | .arr elems => 1 + (elems.attach.map (fun e => jsSize e.1)).sum
  | .obj fields => 1 + (fields.attach.map (fun kv => jsSize kv.1.2)).sum
decreasing_by
  · have := List.sizeOf_lt_of_mem e.2
    simp only [JSValue.arr.sizeOf_spec]
    omega
  · have h1 := List.sizeOf_lt_of_mem kv.2
    have h2 : sizeOf kv.1.2 < sizeOf kv.1 := by
      obtain ⟨a, b⟩ := kv.1
      simp
    simp only [JSValue.obj.sizeOf_spec]
    omega

/-- Escaping of a string for JSON.stringify output. -/
def jsonEscape (s : String) : String :=
  s.data.foldl
    (fun acc c =>
      if c = '"' then acc ++ "\\\""
      else if c = '\\' then acc ++ "\\\\"
      else if c = '\n' then acc ++ "\\n"
      else if c = '\t' then acc ++ "\\t"
      else if c = '\r' then acc ++ "\\r"
      else acc.push c)
    ""

/-- Fuel-indexed body of JSON.stringify. Undefined members of an object are
skipped and undefined array elements serialise as null, as in JS. -/
def jsonStringifyF : Nat → JSValue → String
  | 0, _ => ""
  | _ + 1, .undefined => ""
  | _ + 1, .null => "null"
  | _ + 1, .bool b => if b then "true" else "false"
  | _ + 1, .num q => jsNumToString q
  | _ + 1, .str s => "\"" ++ jsonEscape s ++ "\""
  | fuel + 1, .arr elems =>
      let parts := elems.map fun e =>
        match e with
        | .undefined => "null"
        | _ => jsonStringifyF fuel e
      "[" ++ String.intercalate "," parts ++ "]"
  | fuel + 1, .obj fields =>
      let parts := fields.filterMap fun kv =>
        match kv.2 with
        | .undefined => none
        | v => some ("\"" ++ jsonEscape kv.1 ++ "\":" ++ jsonStringifyF fuel v)
      "\x7b" ++ String.intercalate "," parts ++ "\x7d"

/-- JSON.stringify of a value (the node count bounds the recursion depth). -/
def jsonStringify (v : JSValue) : String :=
  jsonStringifyF (jsSize v) v

/-- Conversion performed by a JS template literal interpolation of a value
(used only inside diagnostic messages of the validator). -/
def jsTemplateStr : JSValue → String
  | .undefined => "undefined"
  | .null => "null"
  | .bool b => if b then "true" else "false"
  | .num q => jsNumToString q
  | .str s => s
  | .arr _ => ""
  | .obj _ => "[object Object]"

/-! ### Template engine (source: utils/templateEngine.ts) -/

/-- Parsed segment of a dot/bracket path. -/
inductive PathPart : Type where
  | property : String → PathPart
  | index : Int → PathPart
deriving DecidableEq, Repr

/-- Model of the radix-10 parseInt of JS: skip leading whitespace, read an
optional sign and then the maximal run of leading digits; none models NaN. -/
def parseIntJS (s : String) : Option Int :=
  let chars := s.data.dropWhile (fun c => c = ' ' ∨ c = '\t' ∨ c = '\n' ∨ c = '\r')
  let signed : Bool × List Char :=
    match chars with
    | '-' :: rest => (true, rest)
    | '+' :: rest => (false, rest)
    | rest => (false, rest)
  let digits := signed.2.takeWhile Char.isDigit
  if digits.isEmpty then none
  else
    let n := digits.foldl (fun acc c => acc * 10 + (c.toNat - '0'.toNat)) 0
    some (if signed.1 then -(n : Int) else (n : Int))

/-- Scanner body of parsePath: accumulate property names between dots and
parse bracketed indices, throwing on a missing closing bracket or a NaN
index. -/
def parsePathAux : Nat → List Char → String → List PathPart →
    Except String (List PathPart)
  | 0, _, _, _ => .error "out of fuel"
  | _ + 1, [], current, parts =>
      .ok (if current ≠ "" then parts ++ [.property current] else parts)
  | fuel + 1, c :: rest, current, parts =>
      if c = '.' then
        parsePathAux fuel rest ""
          (if current ≠ "" then parts ++ [.property current] else parts)
      else if c = '[' then
        let parts := if current ≠ "" then parts ++ [.property current] else parts
        let inner := rest.takeWhile (fun ch => ch ≠ ']')
        let after := rest.drop inner.length
        match after with
        | [] => .error ("Missing closing bracket in path")
        | _ :: afterBracket =>
            match parseIntJS inner.asString with
            | none => .error ("Invalid array index: " ++ inner.asString)
            | some i => parsePathAux fuel afterBracket "" (parts ++ [.index i])
      else
        parsePathAux fuel rest (current.push c) parts

/-- Parsing of a path string into parts (source function parsePath). -/
def parsePath (path : String) : Except String (List PathPart) :=
  parsePathAux (path.length + 1) path.data "" []

/-- One step of the path walk of resolvePath: property access requires a
non-null object-typed value, index access additionally requires an array. -/
def resolveStep (current : JSValue) (part : PathPart) : Except String JSValue :=
  match current with
  | .null => .error "Cannot access property '[object Object]' of null"
  | .undefined => .error "Cannot access property '[object Object]' of undefined"
  | .bool _ => .error "Cannot access property '[object Object]' of non-object"
  | .num _ => .error "Cannot access property '[object Object]' of non-object"
  | .str _ => .error "Cannot access property '[object Object]' of non-object"
  | .arr elems =>
      match part with
      | .property name => .ok (jsGetProp (.arr elems) name)
      | .index i => .ok (jsIndex elems i)
  | .obj fields =>
      match part with
      | .property name => .ok (objLookup fields name)
      | .index _ => .error "Cannot use array index on non-array"

/-- Walk of the parsed parts over the context value. -/
def resolveParts (parts : List PathPart) (current : JSValue) :
    Except String JSValue :=
  match parts with
  | [] => .ok current
  | part :: rest =>
      match resolveStep current part with
      | .error e => .error e
      | .ok next => resolveParts rest next

/-- Resolution of a dot-notation path in the context object (source function
resolvePath; the thrown errors of the source are the error branch). -/
def resolvePath (path : String) (context : JSValue) : Except String JSValue :=
  match parsePath path with
  | .error e => .error e
  | .ok parts => resolveParts parts context

/-- Formatting of a value for string interpolation (source function
formatValue). -/
def formatValue : JSValue → String
  | .undefined => ""
  | .null => ""
  | .str s => s
  | .num q => jsNumToString q
  | .bool b => if b then "true" else "false"
  | v => jsonStringify v

/-- Replacement callback of resolveTemplate: resolve the trimmed path and
format it, returning the original matched text when resolution throws. -/
def templateReplace (context : JSValue) (matchText path : String) : String :=
  match resolvePath (jsTrim path) context with
  | .ok value => formatValue value
  | .error _ => matchText

/-- Left-to-right scan for the pattern of two opening braces, one or more
non-closing-brace characters, and two closing braces, replacing each match
through the callback exactly as String.replace with a global regex does. -/
def scanTemplate (context : JSValue) : Nat → List Char → String
  | 0, rest => rest.asString
  | _ + 1, [] => ""
  | fuel + 1, c :: rest =>
      if c = '{' then
        match rest with
        | '{' :: afterBraces =>
            let inner := afterBraces.takeWhile (fun ch => ch ≠ '}')
            let after := afterBraces.drop inner.length
            match inner, after with
            | _ :: _, '}' :: '}' :: tail =>
                templateReplace context
                  ("\x7b\x7b" ++ inner.asString ++ "\x7d\x7d") inner.asString
                  ++ scanTemplate context fuel tail
            | _, _ => String.singleton c ++ scanTemplate context fuel rest
        | _ => String.singleton c ++ scanTemplate context fuel rest
      else String.singleton c ++ scanTemplate context fuel rest

/-- Resolution of template variables in a string (source function
resolveTemplate); total because each replacement catches its own failure. -/
def resolveTemplate (template : String) (context : JSValue) : String :=
  scanTemplate context (template.length + 1) template.data

/-! ### Expression engine (source: utils/expressionEngine.ts) -/

/-- Value node of the expression AST: a literal (string, number, boolean or
null) or a bare variable path. -/
inductive ExprValue : Type where
  | literal : JSValue → ExprValue
  | var : String → ExprValue

/-- Expression AST: comparison, logical connective, negation, or a bare
value; operators are carried as their token strings as in the source. -/
inductive Expression : Type where
  | comparison : ExprValue → String → ExprValue → Expression
  | logical : Expression → String → Expression → Expression
  | notExpr : Expression → Expression
  | value : ExprValue → Expression

/-- Token flush helper of the tokenizer: push the trimmed pending text when
it is nonempty. -/
def pushCur (current : String) : List String :=
  if jsTrim current ≠ "" then [jsTrim current] else []

/-- Decision for a single non-operator-pair character of the tokenizer
(reached only when no two-character operator matched): either emit tokens
and reset the pending text, or keep accumulating. -/
inductive TokStep : Type where
  | emit : List String → TokStep
  | keep : String → TokStep

/-- Single-character step of the tokenizer, mirroring the source branch
order: angle comparisons, negation, parentheses, space flush,
accumulation (spaces are never accumulated). -/
def singleCharStep (c : Char) (current : String) : TokStep :=
  if c = '>' ∨ c = '<' then .emit (pushCur current ++ [String.singleton c])
  else if c = '!' then .emit (pushCur current ++ ["!"])
  else if c = '(' ∨ c = ')' then .emit (pushCur current ++ [String.singleton c])
  else if c = ' ' then
    (if jsTrim current ≠ "" then .emit (pushCur current) else .keep current)
  else .keep (current.push c)

/-- Two-character operator recognition of the tokenizer. -/
def twoCharOp (c1 c2 : Char) : Option String :=
  if c1 = '&' ∧ c2 = '&' then some "&&"
  else if c1 = '|' ∧ c2 = '|' then some "||"
  else if c1 = '=' ∧ c2 = '=' then some "=="
  else if c1 = '!' ∧ c2 = '=' then some "!="
  else if c1 = '>' ∧ c2 = '=' then some ">="
  else if c1 = '<' ∧ c2 = '=' then some "<="
  else none

/-- Tokenizer scan (source function tokenize): string literals are tracked
with an in-string flag and the opening quote character; outside strings,
two-character operators are recognised before single characters. -/
def tokenizeAux : List Char → String → Bool → Option Char → List String
  | [], current, _, _ => pushCur current
  | [c], current, inString, stringChar =>
      if (c = '"' ∨ c = '\'') ∧ inString = false then
        tokenizeAux [] (String.singleton c) true (some c)
      else if inString ∧ some c = stringChar then
        (current.push c) :: tokenizeAux [] "" false stringChar
      else if inString then
        tokenizeAux [] (current.push c) inString stringChar
      else
        match singleCharStep c current with
        | .emit toks => toks ++ pushCur ""
        | .keep cur => pushCur cur
  | c :: c2 :: rest2, current, inString, stringChar =>
      if (c = '"' ∨ c = '\'') ∧ inString = false then
        tokenizeAux (c2 :: rest2) (String.singleton c) true (some c)
      else if inString ∧ some c = stringChar then
        (current.push c) :: tokenizeAux (c2 :: rest2) "" false stringChar
      else if inString then
        tokenizeAux (c2 :: rest2) (current.push c) inString stringChar
      else
        match twoCharOp c c2 with
        | some op =>
            pushCur current ++ op :: tokenizeAux rest2 "" false stringChar
        | none =>
            match singleCharStep c current with
            | .emit toks => toks ++ tokenizeAux (c2 :: rest2) "" false stringChar
            | .keep cur => tokenizeAux (c2 :: rest2) cur false stringChar

/-- Tokenization of an expression string. -/
def tokenize (expr : String) : List String :=
  tokenizeAux expr.data "" false none

/-- Numeric literal shape test modelling the regex of one optional minus
sign, digits, and an optional fractional part. -/
def isNumLit (s : String) : Bool :=
  let cs := match s.data with
    | '-' :: rest => rest
    | cs => cs
  let intPart := cs.takeWhile Char.isDigit
  let afterInt := cs.drop intPart.length
  !intPart.isEmpty &&
    (afterInt.isEmpty ||
      match afterInt with
      | '.' :: frac => !frac.isEmpty && frac.all Char.isDigit
      | _ => false)

/-- Numeric value of a digit run. -/
def digitsVal (cs : List Char) : Nat :=
  cs.foldl (fun acc c => acc * 10 + (c.toNat - '0'.toNat)) 0

/-- Value of an unsigned decimal literal. -/
def parseDec (cs : List Char) : ℚ :=
  let intPart := cs.takeWhile Char.isDigit
  let afterInt := cs.drop intPart.length
  match afterInt with
  | '.' :: frac =>
      mkRat (digitsVal intPart * 10 ^ frac.length + digitsVal frac) (10 ^ frac.length)
  | _ => (digitsVal intPart : ℚ)

/-- Value of a numeric literal token (parseFloat on a well-shaped token). -/
def parseNumLit (s : String) : ℚ :=
  match s.data with
  | '-' :: rest => -(parseDec rest)
  | cs => parseDec cs

/-- First character test used for quoted-string token recognition. -/
def strStartsWith (s : String) (c : Char) : Bool :=
  s.data.head? = some c

/-- Last character test used for quoted-string token recognition. -/
def strEndsWith (s : String) (c : Char) : Bool :=
  s.data.getLast? = some c

/-- Text between the first and last character of a token (the slice(1,-1)
of JS, empty for length at most two). -/
def sliceInner (s : String) : String :=
  ((s.data.drop 1).dropLast).asString

/-- Comparison operator tokens in the recognition order of the source. -/
def comparisonOps : List String :=
  ["==", "!=", ">=", "<=", ">", "<", "contains", "startsWith", "endsWith"]

/-- Parse of a value token (source function parseValue): quoted string,
numeric, boolean or null literal, otherwise a variable path; an empty token
stream throws. -/
def parseValue (tokens : List String) : Except String (ExprValue × List String) :=
  match tokens with
  | [] => .error "Unexpected end of expression"
  | token :: rest =>
      if (strStartsWith token '"' ∧ strEndsWith token '"') ∨
          (strStartsWith token '\'' ∧ strEndsWith token '\'') then
        .ok (.literal (.str (sliceInner token)), rest)
      else if isNumLit token then
        .ok (.literal (.num (parseNumLit token)), rest)
      else if token = "true" then .ok (.literal (.bool true), rest)
      else if token = "false" then .ok (.literal (.bool false), rest)
      else if token = "null" then .ok (.literal .null, rest)
      else .ok (.var token, rest)

mutual

/-- Parse of logical chains (source function parseLogical): a parseNot
operand followed by a left-associative loop over the logical operators. -/
def parseLogical : Nat → List String → Except String (Expression × List String)
  | 0, _ => .error "Unexpected end of expression"
  | fuel + 1, tokens =>
      match parseNot fuel tokens with
      | .error e => .error e
      | .ok (left, rest) => parseLogicalLoop fuel left rest

/-- While-loop body of parseLogical consuming logical operators. -/
def parseLogicalLoop : Nat → Expression → List String →
    Except String (Expression × List String)
  | 0, left, tokens => .ok (left, tokens)
  | fuel + 1, left, tokens =>
      match tokens with
      | op :: rest =>
          if op = "&&" ∨ op = "||" then
            match parseNot fuel rest with
            | .error e => .error e
            | .ok (right, rest2) =>
                parseLogicalLoop fuel (.logical left op right) rest2
          else .ok (left, tokens)
      | [] => .ok (left, tokens)

/-- Parse of a negation (source function parseNot). -/
def parseNot : Nat → List String → Except String (Expression × List String)
  | 0, _ => .error "Unexpected end of expression"
  | fuel + 1, tokens =>
      match tokens with
      | "!" :: rest =>
          match parseComparison fuel rest with
          | .error e => .error e
          | .ok (expr, rest2) => .ok (.notExpr expr, rest2)
      | _ => parseComparison fuel tokens

/-- Parse of a comparison or parenthesised subexpression (source function
parseComparison): a parenthesis opens a nested parseLogical whose closing
parenthesis is consumed when present. -/
def parseComparison : Nat → List String → Except String (Expression × List String)
  | 0, _ => .error "Unexpected end of expression"
  | fuel + 1, tokens =>
      match tokens with
      | "(" :: rest =>
          match parseLogical fuel rest with
          | .error e => .error e
          | .ok (expr, rest2) =>
              match rest2 with
              | ")" :: rest3 => .ok (expr, rest3)
              | _ => .ok (expr, rest2)
      | _ =>
          match parseValue tokens with
          | .error e => .error e
          | .ok (left, rest) =>
              match rest with
              | op :: rest2 =>
                  if op ∈ comparisonOps then
                    match parseValue rest2 with
                    | .error e => .error e
                    | .ok (right, rest3) => .ok (.comparison left op right, rest3)
                  else .ok (.value left, rest)
              | [] => .ok (.value left, rest)

end

/-- Parse of a whole expression string (source function parseExpression);
the fuel is amply proportional to the token count, and running out of fuel
surfaces as a parse error that the public entry point converts to false
exactly as any other failure. -/
def parseExpression (expr : String) : Except String Expression :=
  let tokens := tokenize expr
  match parseLogical (2 * tokens.length + 4) tokens with
  | .error e => .error e
  | .ok (ast, _) => .ok ast

/-- String containment test for the contains operator. -/
def strContains (l r : String) : Bool :=
  let needle := r.data
  let rec go : List Char → Bool
    | [] => needle = []
    | c :: rest => (needle = (c :: rest).take needle.length) ∨ go rest
  go l.data

/-- Prefix test for the startsWith operator. -/
def strHasPrefixOf (l r : String) : Bool :=
  l.data.take r.data.length == r.data

/-- Suffix test for the endsWith operator. -/
def strHasSuffixOf (l r : String) : Bool :=
  (l.data.drop (l.data.length - r.data.length) == r.data) &&
    decide (r.data.length ≤ l.data.length)

/-- Strict equality of JS for the operand values that can occur here: type
and value agreement on primitives. Reference identity of two object or
array operands is outside a value embedding; those compare unequal here,
which no verified statement relies on. -/
def jsStrictEq : JSValue → JSValue → Bool
  | .undefined, .undefined => true
  | .null, .null => true
  | .bool a, .bool b => a = b
  | .num a, .num b => a = b
  | .str a, .str b => a = b
  | _, _ => false

/-- Evaluation of a comparison (source function evaluateComparison):
numeric comparisons require two numbers and string predicates require two
strings, anything else evaluating to false; equality is strict. -/
def evaluateComparison (left : JSValue) (op : String) (right : JSValue) : Bool :=
  if op = "==" then jsStrictEq left right
  else if op = "!=" then ¬ jsStrictEq left right
  else if op = ">" then
    match left, right with
    | .num a, .num b => a > b
    | _, _ => false
  else if op = "<" then
    match left, right with
    | .num a, .num b => a < b
    | _, _ => false
  else if op = ">=" then
    match left, right with
    | .num a, .num b => a ≥ b
    | _, _ => false
  else if op = "<=" then
    match left, right with
    | .num a, .num b => a ≤ b
    | _, _ => false
  else if op = "contains" then
    match left, right with
    | .str a, .str b => strContains a b
    | _, _ => false
  else if op = "startsWith" then
    match left, right with
    | .str a, .str b => strHasPrefixOf a b
    | _, _ => false
  else if op = "endsWith" then
    match left, right with
    | .str a, .str b => strHasSuffixOf a b
    | _, _ => false
  else false

/-- Resolution of a value node (source function resolveValue): literals
stand for themselves and variable paths reuse the template engine path
resolution with failures caught as undefined. -/
def resolveValue (value : ExprValue) (context : JSValue) : JSValue :=
  match value with
  | .literal v => v
  | .var path =>
      match resolvePath path context with
      | .ok v => v
      | .error _ => .undefined

/-- Evaluation of an AST node (source function evaluateNode); both operands
of a logical connective are evaluated as in the source. -/
def evaluateNode : Expression → JSValue → Bool
  | .comparison left op right, context =>
      evaluateComparison (resolveValue left context) op (resolveValue right context)
  | .logical left op right, context =>
      let l := evaluateNode left context
      let r := evaluateNode right context
      if op = "&&" then l ∧ r
      else if op = "||" then l ∨ r
      else false
  | .notExpr e, context => ¬ evaluateNode e context
  | .value v, context => jsTruthy (resolveValue v context)

/-- Parse and evaluation, the body of the try block of the public entry
point. -/
def evaluateExpressionE (expression : String) (context : JSValue) :
    Except String Bool :=
  match parseExpression expression with
  | .error e => .error e
  | .ok ast => .ok (evaluateNode ast context)

/-- Public expression evaluation (source function evaluateExpression): any
thrown parse or evaluation failure is caught and converted to false. -/
def evaluateExpression (expression : String) (context : JSValue) : Bool :=
  match evaluateExpressionE expression context with
  | .ok b => b
  | .error _ => false

/-! ### Workflow data model (sources: models/workflowStep.ts,
models/workflow.ts, models/workflowExecution.ts) -/

/-- Retry policy of a step (retry field of WorkflowStepSchema). -/
structure RetryPolicy : Type where
  maxAttempts : Nat
  backoffMs : Nat

/-- Workflow step (WorkflowStepSchema); the parameter bag is an opaque JS
value validated only by the handler, and the step type is carried as its
string discriminant. -/
structure WorkflowStep : Type where
  id : String
  type : String
  label : String
  params : JSValue
  nextStepId : Option String := none
  onSuccess : Option String := none
  onFailure : Option String := none
  retry : Option RetryPolicy := none
  timeoutMs : Option Nat := none

/-- Workflow definition (WorkflowSchema), restricted to the fields the
validator and executor read. -/
structure Workflow : Type where
  id : String
  organizationId : String
  name : String
  version : Nat
  entryStepId : String
  steps : List WorkflowStep
  maxExecutionTimeMs : Option Nat := none
  maxSteps : Nat := 100

/-- Terminal error recorded on a failed execution (error field of
WorkflowExecutionSchema; the stack snapshot is omitted). -/
structure ExecError : Type where
  message : String
  code : String

/-- Thrown error of the engine (the Error subclasses of utils/errors.ts),
carrying its class name and message. -/
structure EngineError : Type where
  name : String
  message : String

/-- Step execution record (stepExecutions entries of
WorkflowExecutionSchema). An absent output is the undefined value. -/
structure StepExecution : Type where
  stepId : String
  stepType : String
  status : String
  input : Option JSValue := none
  output : JSValue := .undefined
  error : Option String := none
  startedAt : Option Nat := none
  completedAt : Option Nat := none
  durationMs : Option Nat := none
  retryCount : Nat := 0

/-- Aggregate execution metrics (metrics field of
WorkflowExecutionSchema). -/
structure ExecMetrics : Type where
  stepsExecuted : Int
  llmCallCount : Int
  ragQueryCount : Int
  totalTokensUsed : Int

/-- Workflow execution record (WorkflowExecutionSchema). Timestamps are
ticks of the abstract clock of the execution state; the write-only backward
compatibility aliases of the source (steps, output, input, executionId,
startTime, endTime) duplicate these fields and are omitted. -/
structure WorkflowExecution : Type where
  id : String
  workflowId : String
  workflowVersion : Nat
  organizationId : String
  subOrganizationId : Option String := none
  inputPayload : JSValue
  outputPayload : Option JSValue := none
  status : String
  error : Option ExecError := none
  startedAt : Option Nat := none
  completedAt : Option Nat := none
  durationMs : Option Nat := none
  stepExecutions : List StepExecution := []
  createdAt : Nat
  metrics : Option ExecMetrics := none

/-- Creation of a fresh execution record (source function
createWorkflowExecution); the random id of the source is modelled by a
fixed tag since nothing reads it back. -/
def createWorkflowExecution (workflowId : String) (workflowVersion : Nat)
    (organizationId : String) (inputPayload : JSValue)
    (subOrganizationId : Option String) (now : Nat) : WorkflowExecution :=
  { id := "exec"
    workflowId := workflowId
    workflowVersion := workflowVersion
    organizationId := organizationId
    subOrganizationId := subOrganizationId
    inputPayload := inputPayload
    status := "pending"
    stepExecutions := []
    createdAt := now
    metrics := some ⟨0, 0, 0, 0⟩ }

/-- Append of a fresh pending step record (source function
addStepExecution). -/
def addStepExecution (execution : WorkflowExecution) (stepId stepType : String) :
    WorkflowExecution :=
  { execution with
      stepExecutions := execution.stepExecutions ++
        [{ stepId := stepId, stepType := stepType, status := "pending", retryCount := 0 }] }

/-- Update of a step record (source function updateStepExecution): the
first entry whose stepId matches receives the updates, applied as the
field assignments of the given function; no match leaves the record
unchanged. -/
def updateStepExecution (execution : WorkflowExecution) (stepId : String)
    (updates : StepExecution → StepExecution) : WorkflowExecution :=
  match execution.stepExecutions.findIdx? (fun se => se.stepId = stepId) with
  | none => execution
  | some i =>
      match execution.stepExecutions[i]? with
      | none => execution
      | some se =>
          { execution with
              stepExecutions := execution.stepExecutions.set i (updates se) }

/-! ### Workflow validator (source: workflows/workflowValidator.ts) -/

/-- Validation result (interface ValidationResult with its valid and
isValid aliases). -/
structure ValidationResult : Type where
  valid : Bool
  isValid : Bool
  errors : List String
  warnings : List String

/-- Truthiness of an optional string edge field, as tested by the
JavaScript conditionals on nextStepId, onSuccess and onFailure: absent and
empty strings are falsy. -/
def edgeTruthy : Option String → Bool
  | none => false
  | some s => s ≠ ""

/-- Step ids in first-occurrence order, modelling the insertion order of
the stepIds Set of the source. -/
def stepIdsOrdered (steps : List WorkflowStep) : List String :=
  steps.foldl (fun acc s => if s.id ∈ acc then acc else acc ++ [s.id]) []

/-- Duplicate step ids in the order the duplicates are encountered (one
entry per extra occurrence, as pushed by the source loop). -/
def duplicateIds (steps : List WorkflowStep) : List String :=
  (steps.foldl
    (fun acc s => if s.id ∈ acc.1 then (acc.1, acc.2 ++ [s.id]) else (acc.1 ++ [s.id], acc.2))
    (([] : List String), ([] : List String))).2

/-- Branch-target read of a conditional step parameter field: the source
pushes params.onTrue and params.onFalse when truthy and checks their
membership among the step ids, a membership that only a string value can
satisfy. -/
def condParamError (stepId : String) (fieldName : String) (v : JSValue)
    (ids : List String) : List String :=
  if jsTruthy v then
    match v with
    | .str s =>
        if s ∈ ids then []
        else ["Condition step '" ++ stepId ++ "' references non-existent " ++
          fieldName ++ " step '" ++ s ++ "'"]
    | _ =>
        ["Condition step '" ++ stepId ++ "' references non-existent " ++
          fieldName ++ " step '" ++ jsTemplateStr v ++ "'"]
  else []

/-- Dangling-reference errors of a single step in source push order. -/
def stepRefErrors (ids : List String) (step : WorkflowStep) : List String :=
  (match step.nextStepId with
    | some s =>
        if s ≠ "" ∧ s ∉ ids then
          ["Step '" ++ step.id ++ "' references non-existent next step '" ++ s ++ "'"]
        else []
    | none => []) ++
  (match step.onSuccess with
    | some s =>
        if s ≠ "" ∧ s ∉ ids then
          ["Step '" ++ step.id ++ "' references non-existent onSuccess step '" ++ s ++ "'"]
        else []
    | none => []) ++
  (match step.onFailure with
    | some s =>
        if s ≠ "" ∧ s ∉ ids then
          ["Step '" ++ step.id ++ "' references non-existent onFailure step '" ++ s ++ "'"]
        else []
    | none => []) ++
  (if step.type = "CONDITION" then
    condParamError step.id "onTrue" (jsGetProp step.params "onTrue") ids ++
      condParamError step.id "onFalse" (jsGetProp step.params "onFalse") ids
  else [])

/-- Branch targets read from a conditional step parameter bag for the graph
traversals. Truthy non-string targets, which the source would also visit,
are dead ends with no outgoing edges, never appear among the string step
ids, and can never lie on a cycle, so they are observationally inert and
omitted. -/
def condTargets (params : JSValue) : List String :=
  (match jsGetProp params "onTrue" with
    | .str s => if s ≠ "" then [s] else []
    | _ => []) ++
  (match jsGetProp params "onFalse" with
    | .str s => if s ≠ "" then [s] else []
    | _ => [])

/-- Outgoing edge targets of a step in source push order (linear, success,
failure, conditional branches). -/
def stepTargets (step : WorkflowStep) : List String :=
  (match step.nextStepId with
    | some s => if s ≠ "" then [s] else []
    | none => []) ++
  (match step.onSuccess with
    | some s => if s ≠ "" then [s] else []
    | none => []) ++
  (match step.onFailure with
    | some s => if s ≠ "" then [s] else []
    | none => []) ++
  (if step.type = "CONDITION" then condTargets step.params else [])

/-- Successors of a node: the targets of the first step carrying this id
(the find of the source), or none for an unknown id. -/
def wfSuccs (w : Workflow) (u : String) : List String :=
  match w.steps.find? (fun s => s.id = u) with
  | none => []
  | some step => stepTargets step

/-- Every node the traversals can ever touch: the entry id, all step ids
and all edge targets. -/
def wfUniverse (w : Workflow) : Finset String :=
  insert w.entryStepId
    ((w.steps.map (fun s => s.id)).toFinset ∪
      (w.steps.flatMap stepTargets).toFinset)

/-- State of the depth-first cycle search: the visited set, the recursion
stack and the recorded cycle path strings. -/
structure DfsState : Type where
  visited : Finset String
  stack : Finset String
  circular : List String

/-- Depth-first search of detectCircularReferences: a node already on the
recursion stack records the path as a cycle, a visited node is skipped,
otherwise the node is marked and stacked, its successors are explored, and
it is unstacked. The fuel exceeds the unvisited-node count at every call
reached from the initial state. -/
def dfsVisit (w : Workflow) : Nat → String → List String → DfsState → DfsState
  | 0, _, _, s => s
  | fuel + 1, u, path, s =>
      if u ∈ s.stack then
        { s with circular := s.circular ++ [String.intercalate " -> " (path ++ [u])] }
      else if u ∈ s.visited then s
      else
        let s1 : DfsState :=
          { s with visited := insert u s.visited, stack := insert u s.stack }
        let s2 := (wfSuccs w u).foldl
          (fun acc v => dfsVisit w fuel v (path ++ [u]) acc) s1
        { s2 with stack := s2.stack.erase u }

/-- Cycle detection (source method detectCircularReferences). -/
def detectCircularReferences (w : Workflow) : List String :=
  (dfsVisit w ((wfUniverse w).card + 1) w.entryStepId [] ⟨∅, ∅, []⟩).circular

/-- Breadth-first reachability loop of findReachableSteps. -/
def bfsReach (w : Workflow) : Nat → List String → Finset String → Finset String
  | 0, _, reachable => reachable
  | _ + 1, [], reachable => reachable
  | fuel + 1, q :: rest, reachable =>
      if q ∈ reachable then bfsReach w fuel rest reachable
      else bfsReach w fuel (rest ++ wfSuccs w q) (insert q reachable)

/-- Reachable step set (source method findReachableSteps). -/
def findReachableSteps (w : Workflow) : Finset String :=
  bfsReach w (6 * (wfUniverse w).card + 6) [w.entryStepId] ∅

/-- Error text of the empty-step-list check. -/
def msgNoSteps : String := "Workflow must have at least one step"

/-- Maximum-step-count check of the validator. -/
def checkMaxSteps (w : Workflow) : List String :=
  if w.steps.length > w.maxSteps then
    ["Workflow exceeds maximum allowed steps (" ++ toString w.maxSteps ++ ")"]
  else []

/-- Duplicate-id check of the validator. -/
def checkDuplicates (w : Workflow) : List String :=
  let dups := duplicateIds w.steps
  if dups ≠ [] then ["Duplicate step IDs found: " ++ String.intercalate ", " dups]
  else []

/-- Entry-step existence check of the validator. -/
def checkEntry (w : Workflow) : List String :=
  if w.entryStepId ∈ stepIdsOrdered w.steps then []
  else ["Entry step '" ++ w.entryStepId ++
    "' referenced by entryStepId not found in workflow steps"]

/-- Dangling-reference check of the validator over all steps. -/
def checkRefs (w : Workflow) : List String :=
  w.steps.flatMap (stepRefErrors (stepIdsOrdered w.steps))

/-- Cycle check of the validator. -/
def checkCycles (w : Workflow) : List String :=
  let circularPaths := detectCircularReferences w
  if circularPaths ≠ [] then
    ["circular references detected: " ++ String.intercalate ", " circularPaths]
  else []

/-- Unreachable-step check of the validator. -/
def checkUnreachable (w : Workflow) : List String :=
  let reachable := findReachableSteps w
  let unreachable := (stepIdsOrdered w.steps).filter (fun id => id ∉ reachable)
  if unreachable ≠ [] then
    ["unreachable steps found: " ++ String.intercalate ", " unreachable]
  else []

/-- Validation of a workflow (source method WorkflowValidator.validate): an
empty step list returns immediately with its single error; otherwise every
check runs and the collected errors decide validity. Warnings are never
pushed anywhere in the source. -/
def validate (w : Workflow) : ValidationResult :=
  if w.steps.isEmpty then
    { valid := false, isValid := false, errors := [msgNoSteps], warnings := [] }
  else
    let errors := checkMaxSteps w ++ checkDuplicates w ++ checkEntry w ++
      checkRefs w ++ checkCycles w ++ checkUnreachable w
    { valid := errors.isEmpty, isValid := errors.isEmpty, errors := errors,
      warnings := [] }

/-- Modelled from the spec: the validator as the specification words it,
with every check running and collecting its errors with no
short-circuiting (compare section 4.5: checks are independent of each
other, all run, all errors collected). -/
def validateAllChecksSpec (w : Workflow) : List String :=
  (if w.steps.isEmpty then [msgNoSteps] else []) ++
    checkMaxSteps w ++ checkDuplicates w ++ checkEntry w ++
    checkRefs w ++ checkCycles w ++ checkUnreachable w

/-- Validation gate of the executor (source method validateOrThrow). -/
def validateOrThrow (w : Workflow) : Except EngineError Unit :=
  let result := validate w
  if result.valid then .ok ()
  else
    .error ⟨"WorkflowValidationError",
      "Workflow validation failed: " ++ String.intercalate "; " result.errors⟩

/-- Edge relation of the step graph: b is among the successors of a. -/
def wfEdge (w : Workflow) (a b : String) : Prop :=
  b ∈ wfSuccs w a

/-! ### Workflow executor (sources: workflows/workflowExecutor.ts,
workflows/stepRegistry.ts, workflows/handlers/baseStepHandler.ts) -/

/-- Error object of a step result. -/
structure ResultError : Type where
  message : String
  code : Option String := none
  recoverable : Option Bool := none

/-- Metadata of a step result; the optional fields are those the executor
reads (the source bag is open-ended). -/
structure ResultMetadata : Type where
  duration : Option Nat := none
  tokensUsed : Option Int := none
  llmCallCount : Option Int := none
  ragQueryCount : Option Int := none

/-- Uniform result envelope of a step handler (interface StepResult). -/
structure StepResult : Type where
  success : Bool
  output : JSValue := .undefined
  metadata : Option ResultMetadata := none
  error : Option ResultError := none

/-- Step handler. Parameter validation may throw; execution performs
external I/O out of scope of the core, so it is modelled as an oracle over
the global invocation counter that yields either a thrown error or a step
result, together with how far the wall clock advances during the call. The
concrete step parameters and context passed by the source are functions of
the workflow and of that counter, so the oracle subsumes them. -/
structure BaseStepHandler : Type where
  validateParams : JSValue → Except EngineError Unit
  execute : Nat → (Except EngineError StepResult) × Nat

/-- Step registry lookup (class StepRegistry): a map from step-type string
to the registered handler, of which the executor only uses the lookup. -/
def StepRegistry : Type := String → Option BaseStepHandler

/-- Execution-environment state threaded through a run: the handler
invocation counter, the wall clock, and the recorded retry sleeps. -/
structure EState : Type where
  counter : Nat := 0
  time : Nat := 0
  sleeps : List Nat := []

/-- Options of an execution (interface ExecutionOptions). -/
structure ExecutionOptions : Type where
  maxSteps : Option Nat := none
  timeoutMs : Option Nat := none

/-- JS or-chain on numbers where zero and absent are falsy. -/
def jsOrNat (a : Option Nat) (b : Nat) : Nat :=
  match a with
  | some x => if x = 0 then b else x
  | none => b

/-- JS or-chain on two optional numbers where zero and absent are falsy. -/
def jsOrOpt (a b : Option Nat) : Option Nat :=
  match a with
  | some x => if x = 0 then b else some x
  | none => b

/-- JS or-chain on optional strings where the empty string is falsy
(the onSuccess-or-nextStepId next-step choice). -/
def jsOrStrOpt (a b : Option String) : Option String :=
  match a with
  | some s => if s = "" then b else some s
  | none => b

/-- Retry loop of the executor (source method executeWithRetry): attempts
are numbered from one; a failed attempt that is not the last sleeps
backoffMs times the attempt number before retrying; the last error is
rethrown after the final attempt. -/
def executeWithRetryAux (fn : Nat → (Except EngineError StepResult) × Nat)
    (maxAttempts backoffMs : Nat) :
    Nat → Nat → Option EngineError → EState → (Except EngineError StepResult) × EState
  | 0, _, lastError, st =>
      (.error (lastError.getD ⟨"Error", "Max retry attempts reached"⟩), st)
  | remaining + 1, attempt, _, st =>
      let call := fn st.counter
      let st1 : EState := { st with counter := st.counter + 1, time := st.time + call.2 }
      match call.1 with
      | .ok v => (.ok v, st1)
      | .error e =>
          if attempt < maxAttempts then
            let d := backoffMs * attempt
            executeWithRetryAux fn maxAttempts backoffMs remaining (attempt + 1) (some e)
              { st1 with sleeps := st1.sleeps ++ [d], time := st1.time + d }
          else
            executeWithRetryAux fn maxAttempts backoffMs remaining (attempt + 1) (some e) st1

/-- Execution of a function with retry logic. -/
def executeWithRetry (fn : Nat → (Except EngineError StepResult) × Nat)
    (maxAttempts backoffMs : Nat) (st : EState) :
    (Except EngineError StepResult) × EState :=
  executeWithRetryAux fn maxAttempts backoffMs maxAttempts 1 none st

/-- JS representation of a result metadata bag stored into the template
context. -/
def metadataToJS : Option ResultMetadata → JSValue
  | none => .undefined
  | some m =>
      .obj
        ((match m.duration with | some d => [("duration", JSValue.num d)] | none => []) ++
          (match m.tokensUsed with | some v => [("tokensUsed", JSValue.num v)] | none => []) ++
          (match m.llmCallCount with | some v => [("llmCallCount", JSValue.num v)] | none => []) ++
          (match m.ragQueryCount with | some v => [("ragQueryCount", JSValue.num v)] | none => []))

/-- Assignment context.steps[stepId] = v on the template context, which is
always an object holding a steps object. -/
def ctxSetStep (ctx : JSValue) (stepId : String) (v : JSValue) : JSValue :=
  match ctx with
  | .obj fields =>
      .obj (objSet fields "steps"
        (match objLookup fields "steps" with
          | .obj sf => .obj (objSet sf stepId v)
          | other => other))
  | other => other

/-- Metric accumulation of executeStep: each counter declared with a
numeric value in the result metadata is added. -/
def accumulateMetrics (m : ExecMetrics) (md : ResultMetadata) : ExecMetrics :=
  let m := match md.llmCallCount with
    | some v => { m with llmCallCount := m.llmCallCount + v }
    | none => m
  let m := match md.ragQueryCount with
    | some v => { m with ragQueryCount := m.ragQueryCount + v }
    | none => m
  match md.tokensUsed with
  | some v => { m with totalTokensUsed := m.totalTokensUsed + v }
  | none => m

/-- Body of the try block of executeStep: handler lookup (throwing a
configuration error when missing), parameter validation, the retried
execution, recording of the result on the step record and in the context,
metric accumulation, and the next-step decision. A truthy non-string
nextStep in a conditional output, which the source would carry into a
failing step lookup, is not representable in the typed next-step value and
ends the run here; no verified statement exercises that corner. -/
def executeStepBody (reg : StepRegistry) (step : WorkflowStep)
    (execution : WorkflowExecution) (ctx : JSValue) (st : EState) :
    (Except EngineError (Option String)) × WorkflowExecution × JSValue × EState :=
  match reg step.type with
  | none =>
      (.error ⟨"ConfigurationError",
        "No handler registered for step type '" ++ step.type ++ "'"⟩,
        execution, ctx, st)
  | some handler =>
      match handler.validateParams step.params with
      | .error e => (.error e, execution, ctx, st)
      | .ok _ =>
          match executeWithRetry handler.execute
              (jsOrNat (step.retry.map (fun r => r.maxAttempts)) 1)
              (jsOrNat (step.retry.map (fun r => r.backoffMs)) 1000) st with
          | (.error e, st2) => (.error e, execution, ctx, st2)
          | (.ok result, st2) =>
              let execution := updateStepExecution execution step.id fun se =>
                { se with
                    status := if result.success then "completed" else "failed",
                    output := result.output,
                    error := result.error.map (fun e => e.message),
                    completedAt := some st2.time,
                    durationMs := result.metadata.bind (fun m => m.duration) }
              let ctx := ctxSetStep ctx step.id
                (.obj [("output", result.output), ("metadata", metadataToJS result.metadata)])
              let execution :=
                match execution.metrics, result.metadata with
                | some m, some md =>
                    { execution with metrics := some (accumulateMetrics m md) }
                | _, _ => execution
              let next : Option String :=
                if result.success = false then step.onFailure
                else if step.type = "CONDITION" ∧ jsTruthy result.output then
                  match jsGetProp result.output "nextStep" with
                  | .str s => some s
                  | _ => none
                else jsOrStrOpt step.onSuccess step.nextStepId
              (.ok next, execution, ctx, st2)

/-- Execution of a single step (source method executeStep): append the
pending record, mark it running, run the try body, and on a thrown error
mark the record failed and either continue at the declared onFailure
target or rethrow as a step execution error naming the step. -/
def executeStep (reg : StepRegistry) (step : WorkflowStep)
    (execution : WorkflowExecution) (ctx : JSValue) (st : EState) :
    (Except EngineError (Option String)) × WorkflowExecution × JSValue × EState :=
  let execution := addStepExecution execution step.id step.type
  let execution := updateStepExecution execution step.id fun se =>
    { se with status := "running", startedAt := some st.time }
  match executeStepBody reg step execution ctx st with
  | (.ok next, ex, cx, s) => (.ok next, ex, cx, s)
  | (.error err, ex, cx, s) =>
      let ex := updateStepExecution ex step.id fun se =>
        { se with
            status := "failed",
            error := some err.message,
            completedAt := some s.time }
      if edgeTruthy step.onFailure then (.ok step.onFailure, ex, cx, s)
      else
        (.error ⟨"StepExecutionError",
          "Step '" ++ step.id ++ "' failed: " ++ err.message⟩, ex, cx, s)

/-- Loop of executeSteps: while the current step id is truthy, enforce the
step limit and the timeout, resolve the step defensively, execute it and
continue at the returned next step while keeping the metrics current. The
fuel always exceeds the remaining permitted iterations at the call sites
reached from executeSteps, where the step-limit guard fires first, so the
out-of-fuel result coincides with the guard result there. -/
def execLoop (reg : StepRegistry) (w : Workflow) (maxSteps : Nat)
    (timeoutMs : Option Nat) (startTime : Nat) :
    Nat → Nat → Option String → WorkflowExecution → JSValue → EState →
    (Except EngineError Unit) × WorkflowExecution × JSValue × EState
  | 0, _, cur, execution, ctx, st =>
      match cur with
      | none => (.ok (), execution, ctx, st)
      | some c =>
          if c = "" then (.ok (), execution, ctx, st)
          else
            (.error ⟨"WorkflowValidationError",
              "Exceeded maximum steps (" ++ toString maxSteps ++ ")"⟩,
              execution, ctx, st)
  | fuel + 1, n, cur, execution, ctx, st =>
      match cur with
      | none => (.ok (), execution, ctx, st)
      | some c =>
          if c = "" then (.ok (), execution, ctx, st)
          else if n ≥ maxSteps then
            (.error ⟨"WorkflowValidationError",
              "Exceeded maximum steps (" ++ toString maxSteps ++ ")"⟩,
              execution, ctx, st)
          else if (match timeoutMs with
              | some t => decide (t ≠ 0 ∧ st.time - startTime > t)
              | none => false) then
            (.error ⟨"TimeoutError",
              "Workflow execution exceeded timeout (" ++
                toString (timeoutMs.getD 0) ++ "ms)"⟩,
              execution, ctx, st)
          else
            match w.steps.find? (fun s => s.id = c) with
            | none =>
                (.error ⟨"WorkflowValidationError", "Step not found: " ++ c⟩,
                  execution, ctx, st)
            | some step =>
                match executeStep reg step execution ctx st with
                | (.error e, ex, cx, s) => (.error e, ex, cx, s)
                | (.ok next, ex, cx, s) =>
                    let n' := n + 1
                    let ex := match ex.metrics with
                      | some m =>
                          { ex with metrics := some { m with stepsExecuted := (n' : Int) } }
                      | none => ex
                    execLoop reg w maxSteps timeoutMs startTime fuel n' next ex cx s

/-- Execution of the workflow steps (source method executeSteps): the
effective limits come from the options with workflow fallbacks through the
falsy-or chain, and the loop starts at the entry step. -/
def executeSteps (reg : StepRegistry) (w : Workflow)
    (execution : WorkflowExecution) (ctx : JSValue) (opts : ExecutionOptions)
    (st : EState) :
    (Except EngineError Unit) × WorkflowExecution × JSValue × EState :=
  let maxSteps := jsOrNat opts.maxSteps w.maxSteps
  let timeoutMs := jsOrOpt opts.timeoutMs w.maxExecutionTimeMs
  execLoop reg w maxSteps timeoutMs st.time (maxSteps + 1) 0 (some w.entryStepId)
    execution ctx st

/-- Template context created by execute for one run. -/
def initialContext (w : Workflow) (organizationId : String)
    (inputPayload : JSValue) (subOrganizationId : Option String) : JSValue :=
  .obj
    [("input", inputPayload), ("steps", .obj []),
      ("context",
        .obj
          [("workflowId", .str w.id), ("executionId", .str "exec"),
            ("organizationId", .str organizationId),
            ("subOrganizationId",
              match subOrganizationId with
              | some s => .str s
              | none => .undefined)])]

/-- Execution record created by execute and marked running with its start
timestamp. -/
def startedExecution (w : Workflow) (organizationId : String)
    (inputPayload : JSValue) (subOrganizationId : Option String)
    (st : EState) : WorkflowExecution :=
  let e := createWorkflowExecution w.id w.version organizationId inputPayload
    subOrganizationId st.time
  { e with status := "running", startedAt := some st.time }

/-- Final-output propagation of execute: when the last step record exists
and its output is truthy it becomes the output payload of the run. -/
def setFinalOutput (ex : WorkflowExecution) : WorkflowExecution :=
  match ex.stepExecutions.getLast? with
  | some last =>
      if jsTruthy last.output then { ex with outputPayload := some last.output }
      else ex
  | none => ex

/-- Execution of a workflow (source method execute). Validation throws to
the caller before the try block; afterwards the step loop runs inside the
try block, a normal exit marks the run completed and an error of any kind
is caught and recorded as a failed run, so a workflow execution object is
always returned. -/
def execute (reg : StepRegistry) (w : Workflow) (organizationId : String)
    (inputPayload : JSValue) (subOrganizationId : Option String)
    (opts : ExecutionOptions) (st : EState) :
    (Except EngineError WorkflowExecution) × EState :=
  match validateOrThrow w with
  | .error e => (.error e, st)
  | .ok _ =>
      let execution := startedExecution w organizationId inputPayload subOrganizationId st
      let context := initialContext w organizationId inputPayload subOrganizationId
      match executeSteps reg w execution context opts st with
      | (.ok _, ex, _, st2) =>
          let ex := setFinalOutput ex
          let ex := { ex with
            status := "completed",
            completedAt := some st2.time,
            durationMs := some (st2.time - st.time) }
          (.ok ex, st2)
      | (.error err, ex, _, st2) =>
          let ex := { ex with
            status := "failed",
            completedAt := some st2.time,
            durationMs := some (st2.time - st.time),
            error := some ⟨err.message, err.name⟩ }
          (.ok ex, st2)

/-! ### Demonstration inputs used by the claim theorems and witnesses -/

/-- Primitive JS values (everything except objects and arrays). -/
def isPrimitive : JSValue → Bool
  | .undefined => true
  | .null => true
  | .bool _ => true
  | .num _ => true
  | .str _ => true
  | .arr _ => false
  | .obj _ => false

/-- Context of the expression-engine examples of the spec. -/
def exprDemoCtx : JSValue :=
  .obj [("input", .obj [("score", .num (mkRat 85 100)), ("count", .num 5)])]

/-- Workflow with an empty step list. -/
def noStepsWf : Workflow :=
  { id := "wf_empty", organizationId := "org", name := "empty", version := 1,
    entryStepId := "s", steps := [] }

/-- Handler whose execution always reports an unsuccessful step result. -/
def falseResultHandler : BaseStepHandler :=
  { validateParams := fun _ => .ok (),
    execute := fun _ => (.ok { success := false, error := some { message := "boom" } }, 0) }

/-- Registry holding the unsuccessful-result handler under type T. -/
def falseResultRegistry : StepRegistry :=
  fun t => if t = "T" then some falseResultHandler else none

/-- Valid single-step workflow over step type T with no failure edge. -/
def oneStepWf : Workflow :=
  { id := "wf_one", organizationId := "org", name := "one", version := 1,
    entryStepId := "s1",
    steps := [{ id := "s1", type := "T", label := "S", params := .obj [] }] }

/-- Handler that throws on its first two invocations and succeeds on the
third, as in the retry example of the spec. -/
def retryDemoHandler : BaseStepHandler :=
  { validateParams := fun _ => .ok (),
    execute := fun i =>
      (if i < 2 then .error ⟨"Error", "transient"⟩
       else .ok { success := true, output := .obj [("v", .num 7)] }, 0) }

/-- Registry holding the retrying handler under type RAG. -/
def retryDemoRegistry : StepRegistry :=
  fun t => if t = "RAG" then some retryDemoHandler else none

/-- Single-step workflow with three retry attempts and the given base
backoff delay. -/
def retryDemoWf (b : Nat) : Workflow :=
  { id := "wf_retry", organizationId := "org", name := "retry", version := 1,
    entryStepId := "s1",
    steps := [{ id := "s1", type := "RAG", label := "S", params := .obj [],
                retry := some { maxAttempts := 3, backoffMs := b } }] }

/-- Handler driving the duplicate-execution run: step a succeeds with the
output first, step b reports failure, the re-executed a succeeds with the
output second. -/
def dupRunHandler : BaseStepHandler :=
  { validateParams := fun _ => .ok (),
    execute := fun i =>
      (if i = 0 then .ok { success := true, output := .str "first" }
       else if i = 1 then .ok { success := false, error := some { message := "bfail" } }
       else .ok { success := true, output := .str "second" }, 0) }

/-- Registry holding the duplicate-execution handler under type T. -/
def dupRunRegistry : StepRegistry :=
  fun t => if t = "T" then some dupRunHandler else none

/-- Workflow whose failure edge routes back to the already-executed entry
step, so the same step id is executed twice within one run. -/
def dupRunWf : Workflow :=
  { id := "wf_dup", organizationId := "org", name := "dup", version := 1,
    entryStepId := "a", maxSteps := 3,
    steps := [{ id := "a", type := "T", label := "A", params := .obj [],
                nextStepId := some "b" },
              { id := "b", type := "T", label := "B", params := .obj [],
                onFailure := some "a" }] }

/-- Two-step workflow with a cycle through a failure edge. -/
def cycleWf : Workflow :=
  { id := "wf_cyc", organizationId := "org", name := "cyc", version := 1,
    entryStepId := "a",
    steps := [{ id := "a", type := "LLM", label := "A", params := .obj [],
                nextStepId := some "b" },
              { id := "b", type := "LLM", label := "B", params := .obj [],
                onFailure := some "a" }] }

/-- Handler that always throws. -/
def alwaysThrowHandler : BaseStepHandler :=
  { validateParams := fun _ => .ok (),
    execute := fun _ => (.error ⟨"Error", "kaput"⟩, 0) }

/-- Registry holding the always-throwing handler under type T. -/
def alwaysThrowRegistry : StepRegistry :=
  fun t => if t = "T" then some alwaysThrowHandler else none

/-- Valid single-step workflow over step type T used by the run-level
failure witness. -/
def oneStepWfT : Workflow :=
  { id := "wf_one_t", organizationId := "org", name := "one", version := 1,
    entryStepId := "s1",
    steps := [{ id := "s1", type := "T", label := "S", params := .obj [] }] }

/-- Invariant of the cycle search: while no cycle has been recorded, every
black node (visited and off the recursion stack) has only black successors
and lies on no cycle. -/
def DfsInv (w : Workflow) (s : DfsState) : Prop :=
  s.circular = [] →
    ∀ v, v ∈ s.visited → v ∉ s.stack →
      (∀ t ∈ wfSuccs w v, t ∈ s.visited ∧ t ∉ s.stack) ∧
      ¬ Relation.TransGen (wfEdge w) v v

/-- Precondition of a search call: the visited set stays inside the node
universe, stacked nodes are visited, and the invariant holds. -/
def DfsPre (w : Workflow) (s : DfsState) : Prop :=
  s.visited ⊆ wfUniverse w ∧ (∀ x ∈ s.stack, x ∈ s.visited) ∧ DfsInv w s

/-- Postcondition of a search call: the visited set grows inside the
universe, the stack is restored, the cycle record only ever extends, the
argument node ends visited, the invariant is preserved, and when no new
cycle was recorded the argument node ends black. -/
def DfsPost (w : Workflow) (s s' : DfsState) (u : String) : Prop :=
  s.visited ⊆ s'.visited ∧ s'.visited ⊆ wfUniverse w ∧ s'.stack = s.stack ∧
  (∃ ext, s'.circular = s.circular ++ ext) ∧ u ∈ s'.visited ∧ DfsInv w s' ∧
  (s'.circular = s.circular → u ∈ s'.visited ∧ u ∉ s'.stack)

/-- Postcondition of the successor fold of the search: as for a single
call, with every folded node black when no new cycle was recorded. -/
def DfsFoldPost (w : Workflow) (s s' : DfsState) (vs : List String) : Prop :=
  s.visited ⊆ s'.visited ∧ s'.visited ⊆ wfUniverse w ∧ s'.stack = s.stack ∧
  (∃ ext, s'.circular = s.circular ++ ext) ∧ DfsInv w s' ∧
  (s'.circular = s.circular → ∀ v ∈ vs, v ∈ s'.visited ∧ v ∉ s'.stack)

/-! ### Claim theorems -/

/-- C4: whenever path resolution fails for a placeholder (property access
on a null, undefined or non-object value, or index access on a non-array),
the replacement leaves the original placeholder text unchanged, and the
public resolve call never throws, demonstrated end to end on a failing
placeholder. -/
theorem executor_template_safe_degrade :
    (∀ (ctx : JSValue) (m p : String) (e : String),
      resolvePath (jsTrim p) ctx = .error e → templateReplace ctx m p = m) ∧
    (∀ (cur : JSValue) (part : PathPart),
      (∃ e, resolveStep cur part = .error e) ↔
        (cur = .null ∨ cur = .undefined ∨ (∃ b, cur = .bool b) ∨
          (∃ q, cur = .num q) ∨ (∃ s, cur = .str s) ∨
          (∃ fields i, cur = .obj fields ∧ part = .index i))) ∧
    resolveTemplate "\x7b\x7binput.a.b\x7d\x7d"
        (.obj [("input", .obj [("a", .null)])]) =
      "\x7b\x7binput.a.b\x7d\x7d" := by
  refine ⟨?_, ?_, by decide⟩
  · intro ctx m p e h
    unfold templateReplace
    rw [h]
  · intro cur part
    cases cur <;> cases part <;> simp [resolveStep]

/-- Witness for the hypotheses of the C4 theorem at a concrete failing
path. -/
theorem executor_template_safe_degrade_witness :
    templateReplace (.obj [("input", .obj [])]) "M" "input.x.y" = "M" :=
  executor_template_safe_degrade.1 (.obj [("input", .obj [])]) "M" "input.x.y"
    "Cannot access property '[object Object]' of undefined" (by rfl)

/-- C5: template substitution follows the formatting rule: the question
example substitutes the string, a missing path resolving to undefined is
replaced with the empty string (concretely and in general), the index 1
selects the second array element, and an object value is replaced by its
JSON serialization. -/
theorem executor_template_formatting :
    resolveTemplate "Q: \x7b\x7binput.question\x7d\x7d"
        (.obj [("input", .obj [("question", .str "X")])]) = "Q: X" ∧
    resolveTemplate "\x7b\x7binput.missing\x7d\x7d" (.obj [("input", .obj [])]) = "" ∧
    (∀ (ctx : JSValue) (m p : String),
      resolvePath (jsTrim p) ctx = .ok .undefined → templateReplace ctx m p = "") ∧
    resolveTemplate "\x7b\x7bsteps.s1.output.results[1].text\x7d\x7d"
        (.obj [("steps", .obj [("s1", .obj [("output", .obj [("results",
          .arr [.obj [("text", .str "first")], .obj [("text", .str "second")]])])])])]) =
      "second" ∧
    formatValue (.obj [("a", .num 1)]) = "\x7b\"a\":1\x7d" := by
  refine ⟨by decide, by decide, ?_, by decide, ?_⟩
  · intro ctx m p h
    unfold templateReplace
    rw [h]
    rfl
  · have hsize : jsSize (.obj [("a", .num 1)]) = 2 := by simp [jsSize]
    simp only [formatValue, jsonStringify, hsize]
    decide

/-- Witness for the hypothesis of the C5 theorem at a concrete missing
path. -/
theorem executor_template_formatting_witness :
    templateReplace (.obj [("input", .obj [])]) "M" "input.missing" = "" :=
  executor_template_formatting.2.2.1 (.obj [("input", .obj [])]) "M" "input.missing"
    (by rfl)

/-- C6: the public expression evaluation returns a boolean and never
throws, any thrown parse or evaluation failure yielding false; the spec
examples evaluate as stated: the score-and-count conjunction is true, and
the empty input, the dangling operator, the leading operator and an
unknown token all yield false. -/
theorem executor_expression_never_throws :
    (∀ (s : String) (ctx : JSValue) (e : String),
      evaluateExpressionE s ctx = .error e → evaluateExpression s ctx = false) ∧
    evaluateExpression "input.score > 0.8 && input.count > 3" exprDemoCtx = true ∧
    evaluateExpression "" exprDemoCtx = false ∧
    evaluateExpression "input.score >" exprDemoCtx = false ∧
    evaluateExpression "> 0.8" exprDemoCtx = false ∧
    evaluateExpression "@@@" exprDemoCtx = false := by
  refine ⟨?_, by decide, by decide, by decide, by decide, by decide⟩
  intro s ctx e h
  unfold evaluateExpression
  rw [h]

/-- Witness for the hypothesis of the C6 theorem at the empty input. -/
theorem executor_expression_never_throws_witness :
    evaluateExpression "" exprDemoCtx = false :=
  executor_expression_never_throws.1 "" exprDemoCtx
    "Unexpected end of expression" (by rfl)

/-- C7: each numeric comparison evaluates to the arithmetic comparison
when both operands are numbers and to false otherwise, and equality and
inequality are strict type-and-value comparisons whenever an operand is a
primitive (null included); object operands compare by reference in the
source, which a value embedding cannot express and no claim exercises. -/
theorem executor_comparison_semantics :
    (∀ a b : ℚ,
      evaluateComparison (.num a) ">" (.num b) = decide (a > b) ∧
      evaluateComparison (.num a) "<" (.num b) = decide (a < b) ∧
      evaluateComparison (.num a) ">=" (.num b) = decide (a ≥ b) ∧
      evaluateComparison (.num a) "<=" (.num b) = decide (a ≤ b)) ∧
    (∀ l r : JSValue, (¬ ∃ a b : ℚ, l = .num a ∧ r = .num b) →
      evaluateComparison l ">" r = false ∧
      evaluateComparison l "<" r = false ∧
      evaluateComparison l ">=" r = false ∧
      evaluateComparison l "<=" r = false) ∧
    (∀ l r : JSValue, isPrimitive l = true ∨ isPrimitive r = true →
      (evaluateComparison l "==" r = true ↔ l = r) ∧
      (evaluateComparison l "!=" r = true ↔ l ≠ r)) := by
  refine ⟨?_, ?_, ?_⟩
  · intro a b
    refine ⟨by simp [evaluateComparison], by simp [evaluateComparison],
      by simp [evaluateComparison], by simp [evaluateComparison]⟩
  · intro l r h
    cases l <;> cases r <;>
      first
        | (simp [evaluateComparison]; done)
        | exact absurd ⟨_, _, rfl, rfl⟩ h
  · intro l r h
    cases l <;> cases r <;>
      simp [evaluateComparison, jsStrictEq, isPrimitive] at h ⊢

/-- Witness for the hypotheses of the C7 theorem at concrete operands. -/
theorem executor_comparison_semantics_witness :
    (evaluateComparison (.str "x") ">" (.num 1) = false) ∧
    ((evaluateComparison .null "==" .null = true) ↔ (JSValue.null = JSValue.null)) :=
  ⟨(executor_comparison_semantics.2.1 (.str "x") (.num 1)
      (by rintro ⟨a, b, h, _⟩; cases h)).1,
    (executor_comparison_semantics.2.2 .null .null (Or.inl rfl)).1⟩
/-- C8 counterexample: on the workflow with an empty step list the
validator returns immediately after the step-count check, so its error
list misses the entry-step error that running all checks would also
collect — the checks do short-circuit there. -/
theorem validator_no_short_circuit_counterexample :
    (validate noStepsWf).errors = [msgNoSteps] ∧
    validateAllChecksSpec noStepsWf =
      [msgNoSteps,
        "Entry step 's' referenced by entryStepId not found in workflow steps"] ∧
    (validate noStepsWf).errors ≠ validateAllChecksSpec noStepsWf := by
  refine ⟨by decide, by decide, by decide⟩

/-- C8 amended: validity always equals emptiness of the error list with
warnings never pushed, and for every workflow with a nonempty step list
all checks run and their errors are collected in order without
short-circuiting; an empty step list instead returns immediately with the
single step-count error. -/
theorem validator_collects_all_errors :
    ∀ w : Workflow,
      ((validate w).valid = (validate w).errors.isEmpty) ∧
      ((validate w).isValid = (validate w).valid) ∧
      ((validate w).warnings = []) ∧
      (w.steps ≠ [] →
        (validate w).errors =
          checkMaxSteps w ++ checkDuplicates w ++ checkEntry w ++
            checkRefs w ++ checkCycles w ++ checkUnreachable w) ∧
      (w.steps = [] →
        (validate w).errors = [msgNoSteps] ∧ (validate w).valid = false) := by
  intro w
  by_cases h : w.steps = []
  · simp [validate, h, msgNoSteps]
  · simp [validate, List.isEmpty_iff, h]

/-- Witness for the hypotheses of the C8 theorem on a nonempty workflow. -/
theorem validator_collects_all_errors_witness :
    (validate oneStepWf).errors =
      checkMaxSteps oneStepWf ++ checkDuplicates oneStepWf ++ checkEntry oneStepWf ++
        checkRefs oneStepWf ++ checkCycles oneStepWf ++ checkUnreachable oneStepWf :=
  (validator_collects_all_errors oneStepWf).2.2.2.1 (by simp [oneStepWf])

/-- C10: an update addressed to a step id is applied to the first matching
entry of the execution record, leaving every other position unchanged; in
the run in which the failure edge of b routes back to the already-executed
step a, the updates of the second execution of a land on the first a entry
(whose output becomes the second result) while the appended later a entry
stays pending. -/
theorem executor_updates_first_entry :
    (∀ (exec : WorkflowExecution) (id : String)
        (upd : StepExecution → StepExecution) (k : Nat) (se : StepExecution),
      exec.stepExecutions.findIdx? (fun s => s.stepId = id) = some k →
      exec.stepExecutions[k]? = some se →
      (updateStepExecution exec id upd).stepExecutions =
        exec.stepExecutions.set k (upd se)) ∧
    (∀ (exec : WorkflowExecution) (id : String)
        (upd : StepExecution → StepExecution) (k j : Nat),
      exec.stepExecutions.findIdx? (fun s => s.stepId = id) = some k → j ≠ k →
      (updateStepExecution exec id upd).stepExecutions[j]? =
        exec.stepExecutions[j]?) ∧
    (match executeSteps dupRunRegistry dupRunWf
        (startedExecution dupRunWf "org" (.obj []) none {})
        (initialContext dupRunWf "org" (.obj []) none) {} {} with
      | (_, ex, _, _) =>
          ex.stepExecutions.map (fun se => (se.stepId, se.status,
            (match se.output with | .str s => s | _ => "-")))) =
      [("a", "completed", "second"), ("b", "failed", "-"), ("a", "pending", "-")] := by
  refine ⟨?_, ?_, by decide⟩
  · intro exec id upd k se hfind hget
    simp [updateStepExecution, hfind, hget]
  · intro exec id upd k j hfind hne
    simp only [updateStepExecution, hfind]
    match hget : exec.stepExecutions[k]? with
    | none => rfl
    | some se =>
        simp only
        exact List.getElem?_set_ne (Ne.symm hne)

/-- Witness for the hypotheses of the C10 theorem on a record holding two
entries for the same step id. -/
theorem executor_updates_first_entry_witness :
    (updateStepExecution
        { createWorkflowExecution "w" 1 "org" (.obj []) none 0 with
            stepExecutions :=
              [{ stepId := "a", stepType := "T", status := "pending" },
                { stepId := "a", stepType := "T", status := "pending" }] }
        "a" (fun se => { se with status := "completed" })).stepExecutions =
      [{ stepId := "a", stepType := "T", status := "pending" },
          { stepId := "a", stepType := "T", status := "pending" }].set 0
        ({ stepId := "a", stepType := "T", status := "completed" }) :=
  executor_updates_first_entry.1
    { createWorkflowExecution "w" 1 "org" (.obj []) none 0 with
        stepExecutions :=
          [{ stepId := "a", stepType := "T", status := "pending" },
            { stepId := "a", stepType := "T", status := "pending" }] }
    "a" (fun se => { se with status := "completed" }) 0
    { stepId := "a", stepType := "T", status := "pending" } (by rfl) (by rfl)

/-- C1 counterexample: a structurally invalid workflow makes execute throw
the validation error to the caller instead of returning a workflow
execution record, because the validation gate sits outside the try block. -/
theorem executor_returns_record_counterexample :
    (execute falseResultRegistry noStepsWf "org" (.obj []) none {} {}).1 =
      .error ⟨"WorkflowValidationError",
        "Workflow validation failed: Workflow must have at least one step"⟩ := by
  rfl

/-- C1 amended: for every workflow that passes validation, execute always
returns a workflow execution record, never an exception, and the outcome is
signalled only through the status field as completed or failed; a workflow
failing validation instead throws before the run starts. -/
theorem executor_returns_record :
    ∀ (reg : StepRegistry) (w : Workflow) (org : String) (input : JSValue)
      (sub : Option String) (opts : ExecutionOptions) (st : EState),
      (validate w).valid = true →
      ∃ ex, (execute reg w org input sub opts st).1 = .ok ex ∧
        (ex.status = "completed" ∨ ex.status = "failed") := by
  intro reg w org input sub opts st hvalid
  have h1 : validateOrThrow w = .ok () := by
    unfold validateOrThrow
    simp [hvalid]
  unfold execute
  rw [h1]
  dsimp only
  cases hsteps : executeSteps reg w (startedExecution w org input sub st)
      (initialContext w org input sub) opts st with
  | mk r rest =>
      obtain ⟨ex2, cx2, st2⟩ := rest
      cases r with
      | ok u => exact ⟨_, rfl, Or.inl rfl⟩
      | error e => exact ⟨_, rfl, Or.inr rfl⟩

/-- Witness for the hypothesis of the C1 theorem on a valid workflow. -/
theorem executor_returns_record_witness :
    ∃ ex, (execute falseResultRegistry oneStepWf "org" (.obj []) none {} {}).1 = .ok ex ∧
      (ex.status = "completed" ∨ ex.status = "failed") :=
  executor_returns_record falseResultRegistry oneStepWf "org" (.obj []) none {} {}
    (by decide)

/-- C2 counterexample: a step whose handler reports success false while
declaring no onFailure target does not terminate the run as failed — the
step record is marked failed but the run completes with status completed. -/
theorem executor_failure_propagation_counterexample :
    (match (execute falseResultRegistry oneStepWf "org" (.obj []) none {} {}).1 with
      | .ok ex => (ex.status, ex.stepExecutions.map (fun se => (se.stepId, se.status)))
      | .error _ => ("thrown", [])) =
      ("completed", [("s1", "failed")]) ∧
    ("completed" : String) ≠ "failed" := by
  exact ⟨by decide, by decide⟩

/-- C2 amended: when the handler throws after exhausting its retries, a
declared onFailure target continues the run there, and without one the
step error is rethrown as a step execution error naming the failing step,
which the top level of execute converts into a failed run carrying that
error; when the handler instead returns an unsuccessful result the
executor continues at the declared onFailure target, but with no such
target the loop simply ends and the run completes (see the
counterexample). -/
theorem executor_failure_propagation :
    (∀ (reg : StepRegistry) (step : WorkflowStep) (exec : WorkflowExecution)
        (ctx : JSValue) (st : EState) (h : BaseStepHandler) (e : EngineError)
        (st2 : EState),
      reg step.type = some h →
      h.validateParams step.params = .ok () →
      executeWithRetry h.execute (jsOrNat (step.retry.map (fun r => r.maxAttempts)) 1)
          (jsOrNat (step.retry.map (fun r => r.backoffMs)) 1000) st = (.error e, st2) →
      edgeTruthy step.onFailure = true →
      ∃ ex', executeStep reg step exec ctx st = (.ok step.onFailure, ex', ctx, st2)) ∧
    (∀ (reg : StepRegistry) (step : WorkflowStep) (exec : WorkflowExecution)
        (ctx : JSValue) (st : EState) (h : BaseStepHandler) (e : EngineError)
        (st2 : EState),
      reg step.type = some h →
      h.validateParams step.params = .ok () →
      executeWithRetry h.execute (jsOrNat (step.retry.map (fun r => r.maxAttempts)) 1)
          (jsOrNat (step.retry.map (fun r => r.backoffMs)) 1000) st = (.error e, st2) →
      edgeTruthy step.onFailure = false →
      ∃ ex', executeStep reg step exec ctx st =
        (.error ⟨"StepExecutionError",
          "Step '" ++ step.id ++ "' failed: " ++ e.message⟩, ex', ctx, st2)) ∧
    (∀ (reg : StepRegistry) (w : Workflow) (org : String) (input : JSValue)
        (sub : Option String) (opts : ExecutionOptions) (st : EState)
        (e : EngineError) (ex2 : WorkflowExecution) (cx2 : JSValue) (st2 : EState),
      executeSteps reg w (startedExecution w org input sub st)
          (initialContext w org input sub) opts st = (.error e, ex2, cx2, st2) →
      (validate w).valid = true →
      ∃ ex, (execute reg w org input sub opts st).1 = .ok ex ∧
        ex.status = "failed" ∧ ex.error = some ⟨e.message, e.name⟩ ∧
        ex.stepExecutions = ex2.stepExecutions) ∧
    (∀ (reg : StepRegistry) (step : WorkflowStep) (exec : WorkflowExecution)
        (ctx : JSValue) (st : EState) (h : BaseStepHandler) (r : StepResult)
        (st2 : EState),
      reg step.type = some h →
      h.validateParams step.params = .ok () →
      executeWithRetry h.execute (jsOrNat (step.retry.map (fun r => r.maxAttempts)) 1)
          (jsOrNat (step.retry.map (fun r => r.backoffMs)) 1000) st = (.ok r, st2) →
      r.success = false →
      ∃ ex' cx', executeStep reg step exec ctx st = (.ok step.onFailure, ex', cx', st2)) := by
  refine ⟨?_, ?_, ?_, ?_⟩
  · intro reg step exec ctx st h e st2 hreg hval hfail honf
    unfold executeStep executeStepBody
    rw [hreg]
    try dsimp only
    rw [hval]
    try dsimp only
    rw [hfail]
    try dsimp only
    rw [honf]
    exact ⟨_, rfl⟩
  · intro reg step exec ctx st h e st2 hreg hval hfail honf
    unfold executeStep executeStepBody
    rw [hreg]
    try dsimp only
    rw [hval]
    try dsimp only
    rw [hfail]
    try dsimp only
    rw [honf]
    exact ⟨_, rfl⟩
  · intro reg w org input sub opts st e ex2 cx2 st2 hsteps hvalid
    have h1 : validateOrThrow w = .ok () := by
      unfold validateOrThrow
      simp [hvalid]
    unfold execute
    rw [h1]
    try dsimp only
    rw [hsteps]
    exact ⟨_, rfl, rfl, rfl, rfl⟩
  · intro reg step exec ctx st h r st2 hreg hval hok hsf
    unfold executeStep executeStepBody
    rw [hreg]
    try dsimp only
    rw [hval]
    try dsimp only
    rw [hok]
    try dsimp only
    rw [hsf]
    try dsimp only
    exact ⟨_, _, rfl⟩

/-- Witness for the hypotheses of the C2 theorem: a throwing handler with
and without an onFailure edge, the run-level conversion, and an
unsuccessful result continuing at the failure edge. -/
theorem executor_failure_propagation_witness :
    (∃ ex', executeStep alwaysThrowRegistry
        { id := "s1", type := "T", label := "S", params := .obj [],
          onFailure := some "nxt" }
        (createWorkflowExecution "w" 1 "org" (.obj []) none 0)
        (.obj [("input", .obj []), ("steps", .obj []), ("context", .obj [])]) {} =
      (.ok (some "nxt"), ex',
        .obj [("input", .obj []), ("steps", .obj []), ("context", .obj [])],
        { counter := 1, time := 0, sleeps := [] })) ∧
    (∃ ex', executeStep alwaysThrowRegistry
        { id := "s1", type := "T", label := "S", params := .obj [] }
        (createWorkflowExecution "w" 1 "org" (.obj []) none 0)
        (.obj [("input", .obj []), ("steps", .obj []), ("context", .obj [])]) {} =
      (.error ⟨"StepExecutionError", "Step 's1' failed: kaput"⟩, ex',
        .obj [("input", .obj []), ("steps", .obj []), ("context", .obj [])],
        { counter := 1, time := 0, sleeps := [] })) ∧
    (∃ ex, (execute alwaysThrowRegistry oneStepWfT "org" (.obj []) none {} {}).1 = .ok ex ∧
      ex.status = "failed" ∧
      ex.error = some ⟨"Step 's1' failed: kaput", "StepExecutionError"⟩ ∧
      ex.stepExecutions =
        (executeSteps alwaysThrowRegistry oneStepWfT
          (startedExecution oneStepWfT "org" (.obj []) none {})
          (initialContext oneStepWfT "org" (.obj []) none) {} {}).2.1.stepExecutions) ∧
    (∃ ex' cx', executeStep falseResultRegistry
        { id := "s1", type := "T", label := "S", params := .obj [],
          onFailure := some "nxt" }
        (createWorkflowExecution "w" 1 "org" (.obj []) none 0)
        (.obj [("input", .obj []), ("steps", .obj []), ("context", .obj [])]) {} =
      (.ok (some "nxt"), ex', cx', { counter := 1, time := 0, sleeps := [] })) := by
  refine ⟨?_, ?_, ?_, ?_⟩
  · exact executor_failure_propagation.1 alwaysThrowRegistry _ _ _ _
      alwaysThrowHandler ⟨"Error", "kaput"⟩ _ (by rfl) (by rfl) (by rfl) (by rfl)
  · exact executor_failure_propagation.2.1 alwaysThrowRegistry _ _ _ _
      alwaysThrowHandler ⟨"Error", "kaput"⟩ _ (by rfl) (by rfl) (by rfl) (by rfl)
  · exact executor_failure_propagation.2.2.1 alwaysThrowRegistry oneStepWfT "org"
      (.obj []) none {} {} ⟨"StepExecutionError", "Step 's1' failed: kaput"⟩ _ _ _
      (by rfl) (by decide)
  · exact executor_failure_propagation.2.2.2 falseResultRegistry _ _ _ _
      falseResultHandler { success := false, error := some { message := "boom" } } _
      (by rfl) (by rfl) (by rfl) (by rfl)

/-- C3 counterexample: in the retry run that fails twice and succeeds on
the third attempt with maxAttempts three, the recorded retryCount is zero,
not two — nothing in the executor ever updates retryCount. -/
theorem executor_retry_count_counterexample :
    (match (execute retryDemoRegistry (retryDemoWf 100) "org" (.obj []) none {} {}).1 with
      | .ok ex => ex.stepExecutions.map (fun se => se.retryCount)
      | .error _ => []) = [0] ∧
    (match (execute retryDemoRegistry (retryDemoWf 100) "org" (.obj []) none {} {}).1 with
      | .ok ex => ex.stepExecutions.map (fun se => se.retryCount)
      | .error _ => []) ≠ [2] := by
  exact ⟨by decide, by decide⟩

/-- C3 amended: for every nonzero base delay, the run whose handler throws
on the first two attempts and succeeds on the third under maxAttempts
three produces exactly one step execution entry for the step, marked
completed, with retryCount remaining zero, and the executor sleeps the
base delay times the attempt number between failed attempts (linear
backoff). -/
theorem executor_retry_linear_backoff :
    ∀ b : Nat,
      ∃ ex,
        (execute retryDemoRegistry (retryDemoWf (b + 1)) "org" (.obj []) none {} {}).1 =
          .ok ex ∧
        ex.status = "completed" ∧
        ex.stepExecutions.map (fun se => (se.stepId, se.status, se.retryCount)) =
          [("s1", "completed", 0)] ∧
        (execute retryDemoRegistry (retryDemoWf (b + 1)) "org" (.obj []) none {} {}).2.sleeps =
          [(b + 1) * 1, (b + 1) * 2] := by
  intro b
  exact ⟨_, rfl, rfl, rfl, rfl⟩

lemma mem_wfUniverse_of_succ {w : Workflow} {u t : String}
    (h : t ∈ wfSuccs w u) : t ∈ wfUniverse w := by
  unfold wfSuccs at h
  cases hf : w.steps.find? (fun s => s.id = u) with
  | none => rw [hf] at h; cases h
  | some step =>
      rw [hf] at h
      have hmem : step ∈ w.steps := List.mem_of_find?_eq_some hf
      unfold wfUniverse
      refine Finset.mem_insert_of_mem (Finset.mem_union_right _ ?_)
      rw [List.mem_toFinset]
      exact List.mem_flatMap.mpr ⟨step, hmem, h⟩

lemma steps_ne_nil_of_edge {w : Workflow} {a b : String}
    (h : wfEdge w a b) : w.steps ≠ [] := by
  intro hnil
  unfold wfEdge wfSuccs at h
  rw [hnil] at h
  simp [List.find?] at h

lemma reach_closed {w : Workflow} (P : String → Prop)
    (hcl : ∀ v, P v → ∀ t, wfEdge w v t → P t) {a b : String}
    (ha : P a) (hab : Relation.ReflTransGen (wfEdge w) a b) : P b := by
  induction hab with
  | refl => exact ha
  | tail _ hbc ih => exact hcl _ ih _ hbc

lemma card_sdiff_insert_lt {α : Type} [DecidableEq α] {s t : Finset α} {a : α}
    (ha : a ∈ s) (hna : a ∉ t) : (s \ insert a t).card < (s \ t).card := by
  rw [Finset.sdiff_insert]
  exact Finset.card_erase_lt_of_mem (Finset.mem_sdiff.mpr ⟨ha, hna⟩)

lemma dfsFold_spec (w : Workflow) (fuel : Nat)
    (IH : ∀ (u : String) (path : List String) (s : DfsState),
      (wfUniverse w \ s.visited).card < fuel → u ∈ wfUniverse w →
      DfsPre w s → DfsPost w s (dfsVisit w fuel u path s) u) :
    ∀ (vs : List String) (path : List String) (s : DfsState),
      (∀ v ∈ vs, v ∈ wfUniverse w) →
      (wfUniverse w \ s.visited).card < fuel →
      DfsPre w s →
      DfsFoldPost w s (vs.foldl (fun acc v => dfsVisit w fuel v path acc) s) vs := by
  intro vs
  induction vs with
  | nil =>
      intro path s _ _ hpre
      exact ⟨Finset.Subset.refl _, hpre.1, rfl, ⟨[], by simp⟩, hpre.2.2,
        fun _ v hv => absurd hv (List.not_mem_nil v)⟩
  | cons v vs ih =>
      intro path s hvs hfuel hpre
      simp only [List.foldl_cons]
      have hv := hvs v (List.mem_cons_self v vs)
      obtain ⟨h1sub, h1univ, h1stk, ⟨e1, h1circ⟩, h1mem, h1inv, h1last⟩ :=
        IH v path s hfuel hv hpre
      have hpreA : DfsPre w (dfsVisit w fuel v path s) := by
        refine ⟨h1univ, ?_, h1inv⟩
        intro x hx
        rw [h1stk] at hx
        exact h1sub (hpre.2.1 x hx)
      have hfuelA : (wfUniverse w \ (dfsVisit w fuel v path s).visited).card < fuel := by
        have hle : (wfUniverse w \ (dfsVisit w fuel v path s).visited).card ≤
            (wfUniverse w \ s.visited).card :=
          Finset.card_le_card (Finset.sdiff_subset_sdiff (Finset.Subset.refl _) h1sub)
        omega
      obtain ⟨h2sub, h2univ, h2stk, ⟨e2, h2circ⟩, h2inv, h2last⟩ :=
        ih path (dfsVisit w fuel v path s)
          (fun x hx => hvs x (List.mem_cons_of_mem v hx)) hfuelA hpreA
      refine ⟨Finset.Subset.trans h1sub h2sub, h2univ, h2stk.trans h1stk,
        ⟨e1 ++ e2, by rw [h2circ, h1circ, List.append_assoc]⟩, h2inv, ?_⟩
      intro hcirc x hx
      have hnil : e1 ++ e2 = [] := by
        have hch : s.circular ++ (e1 ++ e2) = s.circular ++ [] := by
          rw [← List.append_assoc, ← h1circ, ← h2circ, hcirc, List.append_nil]
        exact List.append_cancel_left hch
      have he1 : e1 = [] := (List.append_eq_nil.mp hnil).1
      have he2 : e2 = [] := (List.append_eq_nil.mp hnil).2
      have hA : (dfsVisit w fuel v path s).circular = s.circular := by
        rw [h1circ, he1, List.append_nil]
      have h2A : (vs.foldl (fun acc v => dfsVisit w fuel v path acc)
          (dfsVisit w fuel v path s)).circular = (dfsVisit w fuel v path s).circular := by
        rw [h2circ, he2, List.append_nil]
      rcases List.mem_cons.mp hx with hxv | hxvs
      · subst hxv
        obtain ⟨hxin, hxout⟩ := h1last hA
        exact ⟨h2sub hxin, by rw [h2stk]; exact hxout⟩
      · exact h2last h2A x hxvs

lemma dfsVisit_spec (w : Workflow) :
    ∀ (fuel : Nat) (u : String) (path : List String) (s : DfsState),
      (wfUniverse w \ s.visited).card < fuel → u ∈ wfUniverse w →
      DfsPre w s → DfsPost w s (dfsVisit w fuel u path s) u := by
  intro fuel
  induction fuel with
  | zero => intro u path s hfuel; exact absurd hfuel (Nat.not_lt_zero _)
  | succ n IH =>
      intro u path s hfuel hu hpre
      obtain ⟨hsub, hstk, hinv⟩ := hpre
      by_cases hstack : u ∈ s.stack
      · have heq : dfsVisit w (n + 1) u path s =
            { s with circular :=
                s.circular ++ [String.intercalate " -> " (path ++ [u])] } := by
          rw [dfsVisit, if_pos hstack]
        rw [heq]
        refine ⟨Finset.Subset.refl _, hsub, rfl, ⟨_, rfl⟩, hstk u hstack, ?_, ?_⟩
        · intro hc
          exact absurd hc (by simp)
        · intro hc
          exact absurd (congrArg List.length hc) (by simp)
      · by_cases hvis : u ∈ s.visited
        · have heq : dfsVisit w (n + 1) u path s = s := by
            rw [dfsVisit, if_neg hstack, if_pos hvis]
          rw [heq]
          exact ⟨Finset.Subset.refl _, hsub, rfl, ⟨[], by simp⟩, hvis, hinv,
            fun _ => ⟨hvis, hstack⟩⟩
        · have heq : dfsVisit w (n + 1) u path s =
              { ((wfSuccs w u).foldl (fun acc v => dfsVisit w n v (path ++ [u]) acc)
                  (⟨insert u s.visited, insert u s.stack, s.circular⟩ : DfsState)) with
                stack := ((wfSuccs w u).foldl
                    (fun acc v => dfsVisit w n v (path ++ [u]) acc)
                    (⟨insert u s.visited, insert u s.stack, s.circular⟩ : DfsState)).stack.erase u } := by
            rw [dfsVisit, if_neg hstack, if_neg hvis]
          rw [heq]
          set s1 : DfsState := ⟨insert u s.visited, insert u s.stack, s.circular⟩ with hs1
          set s2 := (wfSuccs w u).foldl
            (fun acc v => dfsVisit w n v (path ++ [u]) acc) s1 with hs2
          have hpre1 : DfsPre w s1 := by
            refine ⟨Finset.insert_subset hu hsub, ?_, ?_⟩
            · intro x hx
              rcases Finset.mem_insert.mp hx with hxu | hxs
              · exact Finset.mem_insert.mpr (Or.inl hxu)
              · exact Finset.mem_insert_of_mem (hstk x hxs)
            · intro hc x hxin hxout
              have hxu : x ≠ u := by
                intro hxu
                exact hxout (by rw [hxu]; exact Finset.mem_insert_self u _)
              have hxvis : x ∈ s.visited := by
                rcases Finset.mem_insert.mp hxin with h | h
                · exact absurd h hxu
                · exact h
              have hxstk : x ∉ s.stack := fun h =>
                hxout (Finset.mem_insert_of_mem h)
              obtain ⟨hcl, hnc⟩ := hinv hc x hxvis hxstk
              refine ⟨?_, hnc⟩
              intro t ht
              obtain ⟨htv, hts⟩ := hcl t ht
              have htu : t ≠ u := by
                intro h
                rw [h] at htv
                exact hvis htv
              exact ⟨Finset.mem_insert_of_mem htv,
                fun h => (Finset.mem_insert.mp h).elim htu hts⟩
          have hfuel1 : (wfUniverse w \ s1.visited).card < n := by
            have hlt := card_sdiff_insert_lt (s := wfUniverse w) hu hvis
            have hv1 : s1.visited = insert u s.visited := rfl
            rw [hv1]
            omega
          obtain ⟨h2sub, h2univ, h2stk, ⟨e2, h2circ⟩, h2inv, h2last⟩ :=
            dfsFold_spec w n IH (wfSuccs w u) (path ++ [u]) s1
              (fun v hv => mem_wfUniverse_of_succ hv) hfuel1 hpre1
          have hs1stack : s1.stack = insert u s.stack := rfl
          have hs1circ : s1.circular = s.circular := rfl
          refine ⟨?_, h2univ, ?_, ⟨e2, by rw [h2circ, hs1circ]⟩, ?_, ?_, ?_⟩
          · exact Finset.Subset.trans (Finset.subset_insert u s.visited) h2sub
          · show s2.stack.erase u = s.stack
            rw [h2stk, hs1stack]
            exact Finset.erase_insert hstack
          · exact h2sub (Finset.mem_insert_self u _)
          · -- invariant preservation at the pop
            intro hc0 v hvin hvout
            have hc2 : s2.circular = [] := hc0
            have he2 : e2 = [] := by
              rw [h2circ, hs1circ] at hc2
              exact (List.append_eq_nil.mp hc2).2
            have hA : s2.circular = s1.circular := by
              rw [h2circ, he2, List.append_nil]
            have hblacks := h2last hA
            have hinv2 := h2inv hc2
            have hstk2 : s2.stack = insert u s.stack := by rw [h2stk, hs1stack]
            by_cases hv2 : v ∈ s2.stack
            · have hvu : v = u := by
                by_contra hvu
                exact hvout (Finset.mem_erase.mpr ⟨hvu, hv2⟩)
              subst hvu
              constructor
              · intro t ht
                obtain ⟨htv, hts⟩ := hblacks t ht
                exact ⟨htv, fun h => hts (Finset.mem_of_mem_erase h)⟩
              · intro hcyc
                obtain ⟨t, hvt, htv⟩ := Relation.TransGen.head'_iff.mp hcyc
                have hPt := hblacks t hvt
                have hclosed : ∀ x, (x ∈ s2.visited ∧ x ∉ s2.stack) →
                    ∀ y, wfEdge w x y → (y ∈ s2.visited ∧ y ∉ s2.stack) :=
                  fun x hx y hy => (hinv2 x hx.1 hx.2).1 y hy
                have hPv := reach_closed _ hclosed hPt htv
                rw [hstk2] at hPv
                exact hPv.2 (Finset.mem_insert_self v _)
            · obtain ⟨hcl, hnc⟩ := hinv2 v hvin hv2
              refine ⟨?_, hnc⟩
              intro t ht
              obtain ⟨htv, hts⟩ := hcl t ht
              exact ⟨htv, fun h => hts (Finset.mem_of_mem_erase h)⟩
          · intro _
            refine ⟨h2sub (Finset.mem_insert_self u _), ?_⟩
            show u ∉ s2.stack.erase u
            exact Finset.not_mem_erase u _

/-- C9: every workflow containing a cycle reachable from the entry step by
following any combination of edges is reported invalid, with a cycle error
naming the recorded cycle paths in the error list; the traversal is a
total function that records cycles rather than raising. -/
theorem validator_detects_reachable_cycles :
    ∀ w : Workflow,
      (∃ v, Relation.ReflTransGen (wfEdge w) w.entryStepId v ∧
        Relation.TransGen (wfEdge w) v v) →
      (validate w).valid = false ∧ detectCircularReferences w ≠ [] ∧
      ("circular references detected: " ++
        String.intercalate ", " (detectCircularReferences w)) ∈ (validate w).errors := by
  intro w hcycle
  obtain ⟨v, hreach, hcyc⟩ := hcycle
  have hpre0 : DfsPre w ⟨∅, ∅, []⟩ := by
    refine ⟨Finset.empty_subset _, ?_, ?_⟩
    · intro x hx
      exact absurd hx (Finset.not_mem_empty x)
    · intro _ x hx
      exact absurd hx (Finset.not_mem_empty x)
  have hfuel0 : (wfUniverse w \ (⟨∅, ∅, []⟩ : DfsState).visited).card <
      (wfUniverse w).card + 1 := by
    have hv0 : (⟨∅, ∅, []⟩ : DfsState).visited = (∅ : Finset String) := rfl
    rw [hv0, Finset.sdiff_empty]
    omega
  have hentry : w.entryStepId ∈ wfUniverse w := Finset.mem_insert_self _ _
  obtain ⟨hsub, huniv, hstk, ⟨ext, hcircext⟩, hmem, hinvF, _⟩ :=
    dfsVisit_spec w ((wfUniverse w).card + 1) w.entryStepId [] ⟨∅, ∅, []⟩
      hfuel0 hentry hpre0
  have hdet : detectCircularReferences w ≠ [] := by
    intro hc
    have hc' : (dfsVisit w ((wfUniverse w).card + 1) w.entryStepId [] ⟨∅, ∅, []⟩).circular
        = [] := hc
    have hstk0 : (dfsVisit w ((wfUniverse w).card + 1) w.entryStepId []
        ⟨∅, ∅, []⟩).stack = (∅ : Finset String) := hstk
    have hclosed : ∀ x,
        (x ∈ (dfsVisit w ((wfUniverse w).card + 1) w.entryStepId [] ⟨∅, ∅, []⟩).visited ∧
          x ∉ (dfsVisit w ((wfUniverse w).card + 1) w.entryStepId [] ⟨∅, ∅, []⟩).stack) →
        ∀ y, wfEdge w x y →
        (y ∈ (dfsVisit w ((wfUniverse w).card + 1) w.entryStepId [] ⟨∅, ∅, []⟩).visited ∧
          y ∉ (dfsVisit w ((wfUniverse w).card + 1) w.entryStepId [] ⟨∅, ∅, []⟩).stack) :=
      fun x hx y hy => (hinvF hc' x hx.1 hx.2).1 y hy
    have hPentry :
        w.entryStepId ∈
            (dfsVisit w ((wfUniverse w).card + 1) w.entryStepId [] ⟨∅, ∅, []⟩).visited ∧
          w.entryStepId ∉
            (dfsVisit w ((wfUniverse w).card + 1) w.entryStepId [] ⟨∅, ∅, []⟩).stack := by
      refine ⟨hmem, ?_⟩
      rw [hstk0]
      exact Finset.not_mem_empty _
    have hPv := reach_closed _ hclosed hPentry hreach
    exact (hinvF hc' v hPv.1 hPv.2).2 hcyc
  have hsteps : w.steps ≠ [] := by
    obtain ⟨t, hvt, _⟩ := Relation.TransGen.head'_iff.mp hcyc
    exact steps_ne_nil_of_edge hvt
  have hempty : w.steps.isEmpty = false := by
    rw [List.isEmpty_eq_false]
    exact hsteps
  have hcc : checkCycles w =
      ["circular references detected: " ++
        String.intercalate ", " (detectCircularReferences w)] := by
    unfold checkCycles
    rw [if_pos hdet]
  have herr : ("circular references detected: " ++
      String.intercalate ", " (detectCircularReferences w)) ∈ (validate w).errors := by
    unfold validate
    rw [hempty]
    simp only [Bool.false_eq_true, if_false, List.mem_append, hcc]
    exact Or.inl (Or.inr (List.mem_singleton.mpr rfl))
  refine ⟨?_, hdet, herr⟩
  have hne : (validate w).errors ≠ [] := fun h => by
    rw [h] at herr
    exact absurd herr (List.not_mem_nil _)
  unfold validate at herr hne ⊢
  rw [hempty] at herr hne ⊢
  simp only [Bool.false_eq_true, if_false] at herr hne ⊢
  rw [List.isEmpty_eq_false]
  exact hne

/-- Witness for the hypothesis of the C9 theorem on the concrete cyclic
workflow whose failure edge closes the cycle a, b, a. -/
theorem validator_detects_reachable_cycles_witness :
    (validate cycleWf).valid = false ∧ detectCircularReferences cycleWf ≠ [] ∧
      ("circular references detected: " ++
        String.intercalate ", " (detectCircularReferences cycleWf)) ∈
        (validate cycleWf).errors :=
  validator_detects_reachable_cycles cycleWf
    ⟨"a", Relation.ReflTransGen.refl,
      @Relation.TransGen.head String (wfEdge cycleWf) "a" "b" "a"
        (by unfold wfEdge; decide)
        (@Relation.TransGen.single String (wfEdge cycleWf) "b" "a"
          (by unfold wfEdge; decide))⟩
